import Mathlib

/-!
Verification of the H-Cat-R synthetic handwritten dataset generator
(`build_dataset.py`) against its natural-language specification.

The development is a shallow embedding of the dataset-generation pipeline:

* Python floats that carry split proportions are modelled as exact
  rationals (`ℚ`); Python `int()` truncation is `Int.tdiv` of the
  rational's numerator by its denominator.
* Python's in-place `random.shuffle` (which draws from the module-level
  Mersenne-Twister generator; the program never seeds it) is modelled by
  an explicitly threaded PRNG state (`lcg`) driving a selection shuffle;
  the determinism and permutation properties proved below do not depend
  on the particular generator.
* The PIL calls made by the render worker (`ImageFont.truetype`,
  `textbbox`, `draw.text`, `img.save`) are modelled by an oracle record
  `PIL` whose operations may fail (`Except`), standing for the
  exceptions the Python code catches.  The geometry arithmetic around
  those calls is embedded directly.
* Machine/file-system side effects (writing the PNG) are represented by
  the saved image's dimensions, carried in the worker's result.
-/

/-- Decimal digits of a natural number, most significant first, written
with explicit fuel so that the kernel can evaluate it.  `decDigitsAux
(n+1) n` always has enough fuel since the argument shrinks by a factor
of ten at every step. -/
def decDigitsAux : Nat → Nat → List Nat
  | 0, _ => []
  | fuel + 1, n => if n < 10 then [n] else decDigitsAux fuel (n / 10) ++ [n % 10]

/-- Decimal digits of `n`, most significant first. -/
def decDigits (n : Nat) : List Nat := decDigitsAux (n + 1) n

/-- The ASCII character of a decimal digit. -/
def digitChar (d : Nat) : Char := Char.ofNat (48 + d)

/-- Character list of `n` printed in decimal and left-padded with zeros
to width 8, the model of Python's `f"{n:08d}"`. -/
def pad8Chars (n : Nat) : List Char :=
  let ds := (decDigits n).map digitChar
  List.replicate (8 - ds.length) '0' ++ ds

/-- Model of the image file name `f"{counter:08d}.png"` assigned by both
execution strategies in `build_dataset.py`. -/
def pad8 (n : Nat) : String := String.mk (pad8Chars n) ++ ".png"

/-- Render granularity: `--mode lines` renders a whole text chunk,
`--mode words` renders one image per word. -/
inductive Mode
  | lines
  | words
deriving DecidableEq, Inhabited

/-- The three output subsets (`train`, `validation`, `test`). -/
inductive Subset
  | train
  | validation
  | test
deriving DecidableEq, Inhabited

/-- One entry of `self.texts` as produced by `load_texts`: a chunk of at
most five words together with its source book folder and file name. -/
structure TextData where
  text : String
  book : String
  file : String
deriving DecidableEq, Inhabited

/-- One entry of `self.fonts` as produced by `scan_fonts`. -/
structure FontInfo where
  path : String
  name : String
  category : String
  style : String
deriving DecidableEq, Inhabited

/-- Python `str.split()` with no separator: split on whitespace and drop
empty pieces. -/
def pyWords (s : String) : List String :=
  ((s.data.splitOnP (fun c => c.isWhitespace)).map (fun l => String.mk l)).filter
    (fun w => w ≠ "")

/-- The sub-items rendered for one text chunk: the chunk itself in
`lines` mode, its whitespace-separated words in `words` mode (a chunk
with no words yields no items, matching the `continue` in the source). -/
def wordsToRender (mode : Mode) (td : TextData) : List String :=
  match mode with
  | .words => pyWords td.text
  | .lines => [td.text]

/-- One planned render work item, the embedding of the `task` dict built by
`_generate_dataset_parallel` (the `split_dir` field is omitted: it is
determined by `splitName`).  The fields `fontIdx`, `textIdx` and
`wordIdx` are ghost provenance recording the position of the originating
font in `self.fonts`, of the text chunk in its subset's list, and of the
word within the chunk; they are used only to state ordering properties. -/
structure WorkItem where
  text : String
  fontPath : String
  splitName : Subset
  seq : Nat
  imgFilename : String
  textData : TextData
  fontInfo : FontInfo
  mode : Mode
  fontIdx : Nat
  textIdx : Nat
  wordIdx : Nat
deriving DecidableEq

/-- The three per-subset file-name counters (`counters` in the parallel
strategy, `global_train_count`/`global_val_count`/`global_test_count` in
the sequential one). -/
structure Counters where
  train : Nat
  validation : Nat
  test : Nat
deriving DecidableEq

/-- Read the counter of one subset. -/
def Counters.get (c : Counters) : Subset → Nat
  | .train => c.train
  | .validation => c.validation
  | .test => c.test

/-- Tasks for the words of one text chunk: each consumes the next
sequence number of its subset and records the pre-assigned file name. -/
def tasksForWords (fi : FontInfo) (fIdx : Nat) (mode : Mode) (s : Subset)
    (td : TextData) (tIdx : Nat) : List String → Nat → Nat → List WorkItem × Nat
  | [], _, c => ([], c)
  | w :: ws, wIdx, c =>
    let t : WorkItem :=
      { text := w, fontPath := fi.path, splitName := s, seq := c,
        imgFilename := pad8 c, textData := td, fontInfo := fi, mode := mode,
        fontIdx := fIdx, textIdx := tIdx, wordIdx := wIdx }
    let rest := tasksForWords fi fIdx mode s td tIdx ws (wIdx + 1) (c + 1)
    (t :: rest.1, rest.2)

/-- Tasks for all text chunks of one subset under one font, threading
that subset's counter. -/
def tasksForTexts (fi : FontInfo) (fIdx : Nat) (mode : Mode) (s : Subset) :
    List TextData → Nat → Nat → List WorkItem × Nat
  | [], _, c => ([], c)
  | td :: tds, tIdx, c =>
    let first := tasksForWords fi fIdx mode s td tIdx (wordsToRender mode td) 0 c
    let rest := tasksForTexts fi fIdx mode s tds (tIdx + 1) first.2
    (first.1 ++ rest.1, rest.2)

/-- Tasks contributed by one font: its train texts, then its validation
texts, then its test texts, exactly the inner loop nesting of
`_generate_dataset_parallel`. -/
def tasksForFont (fi : FontInfo) (fIdx : Nat) (mode : Mode)
    (tr va te : List TextData) (c : Counters) : List WorkItem × Counters :=
  let a := tasksForTexts fi fIdx mode .train tr 0 c.train
  let b := tasksForTexts fi fIdx mode .validation va 0 c.validation
  let d := tasksForTexts fi fIdx mode .test te 0 c.test
  (a.1 ++ b.1 ++ d.1, ⟨a.2, b.2, d.2⟩)

/-- WorkItem preparation over the font list (outermost loop of
`_generate_dataset_parallel`). -/
def buildTasksAux (mode : Mode) (tr va te : List TextData) :
    List FontInfo → Nat → Counters → List WorkItem × Counters
  | [], _, c => ([], c)
  | fi :: fis, fIdx, c =>
    let first := tasksForFont fi fIdx mode tr va te c
    let rest := buildTasksAux mode tr va te fis (fIdx + 1) first.2
    (first.1 ++ rest.1, rest.2)

/-- The Planner: the full pre-assigned task list of
`_generate_dataset_parallel`, with all counters starting at zero, plus
the final counters. -/
def buildTasks (fonts : List FontInfo) (mode : Mode)
    (tr va te : List TextData) : List WorkItem × Counters :=
  buildTasksAux mode tr va te fonts 0 ⟨0, 0, 0⟩

/-- The tasks of one subset, in planning order. -/
def subsetTasks (s : Subset) (l : List WorkItem) : List WorkItem :=
  l.filter (fun t => t.splitName == s)

/-- The expected total item count computed by `generate_dataset` before
dispatch (lines 391-396 of the source): words × fonts in `words` mode,
texts × fonts in `lines` mode. -/
def expectedTotalItems (mode : Mode) (textsToUse : List TextData)
    (fonts : List FontInfo) : Nat :=
  match mode with
  | .words => ((textsToUse.map (fun td => (pyWords td.text).length)).sum) * fonts.length
  | .lines => textsToUse.length * fonts.length

/-- A linear congruential generator standing in for Python's global
Mersenne Twister: the shuffle model only needs some deterministic
next-state function. -/
def lcg (s : Nat) : Nat := (s * 1103515245 + 12345) % 2147483648

/-- Selection shuffle with explicit fuel: repeatedly pick the element at
a PRNG-chosen index and move it to the front of the output.  With fuel
equal to the list length the fuel never runs out; the exhausted branch
returns the remaining elements so that the result is a permutation for
every fuel. -/
def shuffleAux {α : Type} [Inhabited α] : Nat → Nat → List α → List α
  | _, _, [] => []
  | 0, _, l => l
  | fuel + 1, s, x :: xs =>
    let l := x :: xs
    let j := s % l.length
    l.getD j default :: shuffleAux fuel (lcg s) (l.eraseIdx j)

/-- Model of `random.shuffle(texts_to_use)`: a permutation of the input
determined by the PRNG state `seed`. -/
def pyShuffle {α : Type} [Inhabited α] (seed : Nat) (l : List α) : List α :=
  shuffleAux l.length seed l

/-- Python `int()` applied to an exact rational value: truncation toward
zero. -/
def pyInt (q : ℚ) : Int := q.num.tdiv (q.den : Int)

/-- The split of the shuffled text list performed by `generate_dataset`
(lines 376-384): `train_end = int(n * train_split)`,
`val_end = train_end + int(n * val_split)`, and Python slices
`[:train_end]`, `[train_end:val_end]`, `[val_end:]`.  Proportions are
taken non-negative (as the claims do), so the slice indices are the
natural numbers below. -/
def split3 (texts : List TextData) (pTrain pVal : ℚ) :
    List TextData × List TextData × List TextData :=
  let n := texts.length
  let trainEnd := (pyInt ((n : ℚ) * pTrain)).toNat
  let valEnd := trainEnd + (pyInt ((n : ℚ) * pVal)).toNat
  (texts.take trainEnd, (texts.drop trainEnd).take (valEnd - trainEnd),
    texts.drop valEnd)

/-- The claim's per-subset size `round(n * p)`: mathematical rounding,
`floor(x + 1/2)`, written with an executable rational floor. -/
def ratFloor (q : ℚ) : Int := q.num.fdiv (q.den : Int)

/-- Rounding to the nearest integer, as in the specification sentence
`the train range is the first round(n * p_train) units`. -/
def specRound (q : ℚ) : Int := ratFloor (q + 1 / 2)

/-- Model of `texts_to_use = self.texts[:max_texts] if max_texts else
self.texts`: `None` and `0` are falsy, so both leave the whole list (and
alias the builder's own list). -/
def textsToUse (maxTexts : Option Nat) (texts : List TextData) : List TextData :=
  match maxTexts with
  | none => texts
  | some 0 => texts
  | some m => texts.take m

/-- Whether `texts_to_use` aliases `self.texts` (truthiness of
`max_texts`): slicing copies, the bare reference does not. -/
def aliasesOriginal (maxTexts : Option Nat) : Bool :=
  match maxTexts with
  | none => true
  | some 0 => true
  | some _ => false

/-- The two fatal configuration diagnostics actually present in
`generate_dataset`. -/
inductive GenError
  | noFonts
  | noTexts
deriving DecidableEq

/-- Outcome of one `generate_dataset` invocation: the planned work-item
list (or the configuration error that aborted the run) together with the
contents of `self.texts` after the call — the shuffle is in place, so
when `texts_to_use` aliases `self.texts` the builder's list is the
shuffled one afterwards. -/
structure RunOutcome where
  result : Except GenError (List WorkItem)
  selfTexts : List TextData

/-- Whether a run completed (no configuration abort). -/
def genOk : Except GenError (List WorkItem) → Bool
  | .ok _ => true
  | .error _ => false

/-- The planning stage of `generate_dataset`: emptiness checks, optional
truncation, in-place shuffle, proportional split, and pre-assigned task
construction.  Rendering itself is modelled separately (the engines
below); the planned task list is the value rendering consumes. -/
def generateDatasetRun (fonts : List FontInfo) (texts : List TextData)
    (mode : Mode) (pTrain pVal : ℚ) (seed : Nat) (maxTexts : Option Nat) :
    RunOutcome :=
  if fonts = [] then ⟨.error .noFonts, texts⟩
  else if texts = [] then ⟨.error .noTexts, texts⟩
  else
    let ttu := textsToUse maxTexts texts
    let shuffled := pyShuffle seed ttu
    let parts := split3 shuffled pTrain pVal
    ⟨.ok (buildTasks fonts mode parts.1 parts.2.1 parts.2.2).1,
      if aliasesOriginal maxTexts then shuffled else texts⟩

/-- One row of the (subset, sequence number) ↦ (file name, caption)
assignment realised by an execution strategy. -/
def Entry : Type := (Subset × Nat) × (String × String)

instance : DecidableEq Entry := by
  unfold Entry
  infer_instance

/-- The assignment row of a pre-planned work item. -/
def taskEntry (t : WorkItem) : Entry :=
  ((t.splitName, t.seq), (t.imgFilename, t.text))

/-- The parallel strategy's assignment: every planned item keeps its
pre-assigned name; items on which rendering fails (oracle `ok` false on
their font and text) contribute nothing.  `imap_unordered` collects in
completion order; the claims compare assignments as sets of rows, so the
submission order is used as the representative enumeration. -/
def parAssignment (ok : String → String → Bool) (tasks : List WorkItem) :
    List Entry :=
  tasks.filterMap
    (fun t => if ok t.fontPath t.text then some (taskEntry t) else none)

/-- Sequential strategy, innermost loop: a failed render (`img is None`)
skips the item without touching the counter; a successful one takes the
current counter value as its name and increments it. -/
def seqWords (ok : String → String → Bool) (fi : FontInfo) (s : Subset) :
    List String → Nat → List Entry × Nat
  | [], c => ([], c)
  | w :: ws, c =>
    if ok fi.path w then
      let e : Entry := ((s, c), (pad8 c, w))
      let rest := seqWords ok fi s ws (c + 1)
      (e :: rest.1, rest.2)
    else
      seqWords ok fi s ws c

/-- Sequential strategy over the text chunks of one subset. -/
def seqTexts (ok : String → String → Bool) (fi : FontInfo) (mode : Mode)
    (s : Subset) : List TextData → Nat → List Entry × Nat
  | [], c => ([], c)
  | td :: tds, c =>
    let first := seqWords ok fi s (wordsToRender mode td) c
    let rest := seqTexts ok fi mode s tds first.2
    (first.1 ++ rest.1, rest.2)

/-- Sequential strategy, one font: train, validation, then test texts. -/
def seqFont (ok : String → String → Bool) (fi : FontInfo) (mode : Mode)
    (tr va te : List TextData) (c : Counters) : List Entry × Counters :=
  let a := seqTexts ok fi mode .train tr c.train
  let b := seqTexts ok fi mode .validation va c.validation
  let d := seqTexts ok fi mode .test te c.test
  (a.1 ++ b.1 ++ d.1, ⟨a.2, b.2, d.2⟩)

/-- Sequential strategy over all fonts. -/
def seqEngineAux (ok : String → String → Bool) (mode : Mode)
    (tr va te : List TextData) : List FontInfo → Counters → List Entry × Counters
  | [], c => ([], c)
  | fi :: fis, c =>
    let first := seqFont ok fi mode tr va te c
    let rest := seqEngineAux ok mode tr va te fis first.2
    (first.1 ++ rest.1, rest.2)

/-- The assignment produced by `_generate_dataset_sequential`: global
counters start at zero and advance only on successful renders. -/
def seqAssignment (ok : String → String → Bool) (fonts : List FontInfo)
    (mode : Mode) (tr va te : List TextData) : List Entry :=
  (seqEngineAux ok mode tr va te fonts ⟨0, 0, 0⟩).1

/-- Two strategies realise the same (subset, sequence number) ↦
(file name, caption) mapping when each row of one occurs in the other. -/
def assignmentsAgree (l1 l2 : List Entry) : Prop :=
  (∀ e ∈ l1, e ∈ l2) ∧ (∀ e ∈ l2, e ∈ l1)

instance (l1 l2 : List Entry) : Decidable (assignmentsAgree l1 l2) := by
  unfold assignmentsAgree
  infer_instance

/-- One metadata row (`metadata_entry` in the source).  The parallel
worker keeps `split_name` so that the collector can partition rows per
subset; partitioning is modelled by filtering on that field. -/
structure Meta where
  file_name : String
  text : String
  font_name : String
  font_category : String
  font_style : String
  source_book : String
  mode : Mode
  split_name : Subset
deriving DecidableEq

/-- The metadata row produced for a work item. -/
def metaOf (t : WorkItem) : Meta :=
  { file_name := t.imgFilename, text := t.text, font_name := t.fontInfo.name,
    font_category := t.fontInfo.category, font_style := t.fontInfo.style,
    source_book := t.textData.book, mode := t.mode, split_name := t.splitName }

/-- Oracle for the PIL calls of the render worker; each call can fail,
standing for the exception the Python code would see.  `truetype` is
keyed by font path and size, `textbbox` by font path, size and text,
`save` by target file name. -/
structure PIL where
  truetype : String → Int → Except String Unit
  textbbox : String → Int → String → Except String (Int × Int × Int × Int)
  draw : String → Int → String → Except String Unit
  save : String → Except String Unit

/-- Everything a successful render produces: the saved image's
dimensions, the final measured text width (provenance for stating the
width law), and the returned metadata row. -/
structure RenderOut where
  width : Int
  height : Nat
  measuredWidth : Int
  meta : Meta
deriving DecidableEq

/-- Tail of the worker body after the final measurement: compute the
image geometry (`img_width = max(text_width, 10)`, height exactly the
target), draw, and save. -/
def finishRender (pil : PIL) (t : WorkItem) (targetHeight : Nat)
    (fontSize x0 y0 x1 y1 : Int) : Except String RenderOut :=
  let textWidth := x1 - x0
  let imgWidth := max textWidth 10
  match pil.draw t.fontPath fontSize t.text with
  | .error e => .error e
  | .ok _ =>
    match pil.save t.imgFilename with
    | .error e => .error e
    | .ok _ =>
      .ok { width := imgWidth, height := targetHeight,
            measuredWidth := textWidth, meta := metaOf t }

/-- Middle of the worker body: the single corrective rescale pass.  When
the measured height is positive the candidate size is rescaled by
`(target_height * 0.8) / text_height`, the font reloaded and the text
re-measured (float products truncated by `int()` are modelled as one
integer truncated division; the resulting size only parameterises the
oracle). -/
def afterMeasure (pil : PIL) (t : WorkItem) (targetHeight : Nat)
    (fontSize x0 y0 x1 y1 : Int) : Except String RenderOut :=
  let textHeight := y1 - y0
  if 0 < textHeight then
    let newSize := (fontSize * (8 * (targetHeight : Int))).tdiv (10 * textHeight)
    match pil.truetype t.fontPath newSize with
    | .error e => .error e
    | .ok _ =>
      match pil.textbbox t.fontPath newSize t.text with
      | .error e => .error e
      | .ok (a0, b0, a1, b1) => finishRender pil t targetHeight newSize a0 b0 a1 b1
  else
    finishRender pil t targetHeight fontSize x0 y0 x1 y1

/-- The body of `_generate_single_image`'s `try` block: load the font at
`int(target_height * 0.7)`, measure, optionally rescale and re-measure,
then size, draw and save the image. -/
def workerBody (pil : PIL) (t : WorkItem) (targetHeight : Nat) :
    Except String RenderOut :=
  let fontSize : Int := ((targetHeight : Int) * 7).tdiv 10
  match pil.truetype t.fontPath fontSize with
  | .error e => .error e
  | .ok _ =>
    match pil.textbbox t.fontPath fontSize t.text with
    | .error e => .error e
    | .ok (x0, y0, x1, y1) => afterMeasure pil t targetHeight fontSize x0 y0 x1 y1

/-- `_generate_single_image`: the whole body runs under `try`, and any
failure is returned as the failure marker `None` instead of an
exception crossing the worker boundary. -/
def generateSingleImage (pil : PIL) (t : WorkItem) (targetHeight : Nat) :
    Option Meta :=
  match workerBody pil t targetHeight with
  | .ok r => some r.meta
  | .error _ => none

/-- The parallel engine's collection loop: only non-`None` results are
appended to the result buffer (completion order abstracted to submission
order; the counted quantities are order-independent). -/
def collectResults (pil : PIL) (targetHeight : Nat) (tasks : List WorkItem) :
    List Meta :=
  tasks.filterMap (fun t => generateSingleImage pil t targetHeight)

/-- `stats['images_generated']` after the parallel run: the number of
collected (non-failing) results. -/
def imagesGenerated (pil : PIL) (targetHeight : Nat) (tasks : List WorkItem) :
    Nat :=
  (collectResults pil targetHeight tasks).length

/-- Per-subset sample count after the parallel run (`train_samples`,
`val_samples`, `test_samples`): collected rows carrying that subset
tag. -/
def subsetSamples (pil : PIL) (targetHeight : Nat) (tasks : List WorkItem)
    (s : Subset) : Nat :=
  ((collectResults pil targetHeight tasks).filter
    (fun m => m.split_name == s)).length

/-- Boolean list-prefix test. -/
def listPrefixB : List Char → List Char → Bool
  | [], _ => true
  | _ :: _, [] => false
  | a :: as, b :: bs => a == b && listPrefixB as bs

/-- Boolean contiguous-sublist test. -/
def listInfixB (n : List Char) : List Char → Bool
  | [] => listPrefixB n []
  | b :: bs => listPrefixB n (b :: bs) || listInfixB n bs

/-- Substring test, Python's `in` on strings. -/
def substr (needle hay : String) : Bool :=
  listInfixB needle.data hay.data

/-- Model of `str.lower()` (character-wise; the font file names involved
are ASCII). -/
def strLower (s : String) : String := String.mk (s.data.map Char.toLower)

/-- The bold-marker substrings of `scan_fonts`
(`['bold', 'bd', 'heavy', 'black']`). -/
def boldKeywords : List String := ["bold", "bd", "heavy", "black"]

/-- The full marker list checked by the `elif` branch of `scan_fonts`
(`['italic', 'oblique', 'bold', 'bd', 'heavy', 'black']`). -/
def allStyleKeywords : List String :=
  ["italic", "oblique", "bold", "bd", "heavy", "black"]

/-- Which of the two candidate lists (if any) a font file joins. -/
inductive StyleClass
  | boldLike
  | normalLike
  | neither
deriving DecidableEq

/-- The per-file `if`/`elif` classification of `scan_fonts` (lines
175-185): a bold-marker match goes to the bold list unless an
italic/oblique marker is also present; otherwise the file goes to the
normal list when it carries none of the six markers. -/
def classifyFontFile (fileName : String) : StyleClass :=
  let n := strLower fileName
  if boldKeywords.any (fun k => substr k n) then
    if !(substr "italic" n) && !(substr "oblique" n) then .boldLike else .neither
  else if !(allStyleKeywords.any (fun k => substr k n)) then .normalLike
  else .neither

/-- Bold-likeness as the claim words it: the lowercased name contains a
bold, heavy or black marker and no italic or oblique marker. -/
def specBoldLike (fileName : String) : Bool :=
  let n := strLower fileName
  (["bold", "heavy", "black"].any (fun k => substr k n))
    && !(substr "italic" n) && !(substr "oblique" n)

/-- Normal-likeness as the claim words it: the lowercased name contains
none of the bold, heavy, black, italic or oblique markers. -/
def specNormalLike (fileName : String) : Bool :=
  let n := strLower fileName
  !(["bold", "heavy", "black", "italic", "oblique"].any (fun k => substr k n))

/-- Bold-likeness with the marker list the code actually uses, which
also counts the abbreviation `bd` as a bold marker. -/
def specBoldLikeFixed (fileName : String) : Bool :=
  let n := strLower fileName
  (["bold", "bd", "heavy", "black"].any (fun k => substr k n))
    && !(substr "italic" n) && !(substr "oblique" n)

/-- Normal-likeness with the marker list the code actually uses (the
`bd` abbreviation included). -/
def specNormalLikeFixed (fileName : String) : Bool :=
  let n := strLower fileName
  !(["bold", "bd", "heavy", "black", "italic", "oblique"].any
      (fun k => substr k n))

/-- Family-folder selection of `scan_fonts` (lines 195-220): under the
requested style, the first file of the matching candidate list, or
nothing (skip) when that list is empty. -/
def scanFamilyFolder (style : String) (category famName : String)
    (fontFiles : List String) : Option FontInfo :=
  let normalFonts :=
    fontFiles.filter (fun f => classifyFontFile f == StyleClass.normalLike)
  let boldFonts :=
    fontFiles.filter (fun f => classifyFontFile f == StyleClass.boldLike)
  if style = "bold" then
    match boldFonts with
    | b :: _ => some ⟨b, famName, category, "bold"⟩
    | [] => none
  else if style = "normal" then
    match normalFonts with
    | nf :: _ => some ⟨nf, famName, category, "normal"⟩
    | [] => none
  else none

/-- The provenance triple of a work item: originating font position,
text-chunk position inside its subset, word position inside the chunk. -/
def idxKey (t : WorkItem) : Nat × Nat × Nat := (t.fontIdx, t.textIdx, t.wordIdx)

/-- Lexicographic strict order on provenance triples. -/
def idxLexLt (a b : Nat × Nat × Nat) : Prop :=
  a.1 < b.1 ∨ (a.1 = b.1 ∧ (a.2.1 < b.2.1 ∨ (a.2.1 = b.2.1 ∧ a.2.2 < b.2.2)))

instance (a b : Nat × Nat × Nat) : Decidable (idxLexLt a b) := by
  unfold idxLexLt
  infer_instance

/-- Number of render items contributed by a list of text chunks under a
granularity (the summand behind both engines' loops). -/
def itemsCount (mode : Mode) (tds : List TextData) : Nat :=
  (tds.map (fun td => (wordsToRender mode td).length)).sum

/-- Choose the per-subset component of a train/validation/test triple. -/
def pick3 {α : Type} (s : Subset) (tr va te : α) : α :=
  match s with
  | .train => tr
  | .validation => va
  | .test => te

/-- Concrete font fixture used by witnesses and counterexamples. -/
def fontA : FontInfo :=
  ⟨"fonts/serif/Alpha/Alpha-Regular.ttf", "Alpha", "serif", "normal"⟩

/-- Concrete text fixture (a one-word chunk). -/
def textA : TextData := ⟨"a", "book1", "f1.txt"⟩

/-- Concrete text fixture (another one-word chunk). -/
def textB : TextData := ⟨"b", "book1", "f1.txt"⟩

/-- Concrete text fixture (a third one-word chunk). -/
def textC : TextData := ⟨"c", "book1", "f1.txt"⟩

/-- Render-success oracle failing exactly on the caption `a` (one bad
font/text combination). -/
def okCx : String → String → Bool := fun _ w => !(w == "a")

/-- Concrete planned work item rendering the empty string. -/
def taskEmpty : WorkItem :=
  { text := "", fontPath := fontA.path, splitName := .train, seq := 0,
    imgFilename := pad8 0, textData := textA, fontInfo := fontA,
    mode := .lines, fontIdx := 0, textIdx := 0, wordIdx := 0 }

/-- PIL oracle whose font loading always fails (a font file that cannot
be opened). -/
def pilFail : PIL :=
  { truetype := fun _ _ => .error "cannot open font",
    textbbox := fun _ _ _ => .ok (0, 0, 0, 0),
    draw := fun _ _ _ => .ok (),
    save := fun _ => .ok () }

/-- PIL oracle on which every call succeeds; the empty string measures
as an empty bounding box and other text as a 50 x 80 box. -/
def pilOk : PIL :=
  { truetype := fun _ _ => .ok (),
    textbbox := fun _ _ tx =>
      if tx = "" then .ok (0, 0, 0, 0) else .ok (0, 10, 50, 90),
    draw := fun _ _ _ => .ok (),
    save := fun _ => .ok () }

/-- The successful render of the empty string at target height 128 on
`pilOk`: zero measured box, so the width floor applies. -/
def renderOutEmpty : RenderOut :=
  { width := 10, height := 128, measuredWidth := 0, meta := metaOf taskEmpty }

/-- First planned item of the two-text lines-mode fixture plan. -/
def wiA : WorkItem :=
  { text := "a", fontPath := fontA.path, splitName := .train, seq := 0,
    imgFilename := pad8 0, textData := textA, fontInfo := fontA,
    mode := .lines, fontIdx := 0, textIdx := 0, wordIdx := 0 }

/-- Second planned item of the two-text lines-mode fixture plan. -/
def wiB : WorkItem :=
  { text := "b", fontPath := fontA.path, splitName := .train, seq := 1,
    imgFilename := pad8 1, textData := textB, fontInfo := fontA,
    mode := .lines, fontIdx := 0, textIdx := 1, wordIdx := 0 }

theorem decDigitsAux_lt_ten :
    ∀ fuel n, ∀ d ∈ decDigitsAux fuel n, d < 10 := by
  intro fuel
  induction fuel with
  | zero => intro n d hd; simp [decDigitsAux] at hd
  | succ fuel ih =>
    intro n d hd
    unfold decDigitsAux at hd
    by_cases h : n < 10
    · simp [h] at hd; omega
    · simp [h, List.mem_append] at hd
      rcases hd with hd | hd
      · exact ih _ _ hd
      · omega

theorem decDigitsAux_foldl (f : Nat → Nat → Nat)
    (hf : ∀ a d, f a d = 10 * a + d) :
    ∀ fuel n, n < fuel → ∀ a,
      (decDigitsAux fuel n).foldl f a
        = a * 10 ^ (decDigitsAux fuel n).length + n := by
  intro fuel
  induction fuel with
  | zero => intro n hn; omega
  | succ fuel ih =>
    intro n hn a
    unfold decDigitsAux
    by_cases h : n < 10
    · simp [h, List.foldl, hf]
      ring
    · have hrec : n / 10 < fuel := by
        have h1 : n / 10 < n := Nat.div_lt_self (by omega) (by omega)
        omega
      simp only [h, if_false, List.foldl_append, List.length_append]
      rw [ih _ hrec a]
      simp [List.foldl, hf]
      have : 10 * (n / 10) + n % 10 = n := Nat.div_add_mod n 10
      rw [pow_succ]
      ring_nf
      omega

theorem toNat_digitChar (d : Nat) (hd : d < 10) :
    (digitChar d).toNat = 48 + d := by
  unfold digitChar
  interval_cases d <;> decide

theorem foldl_map_digitChar (ds : List Nat) (hds : ∀ d ∈ ds, d < 10) :
    ∀ a, (ds.map digitChar).foldl (fun x c => 10 * x + (c.toNat - 48)) a
      = ds.foldl (fun x d => 10 * x + d) a := by
  induction ds with
  | nil => intro a; rfl
  | cons d ds ih =>
    intro a
    simp only [List.map_cons, List.foldl_cons]
    rw [toNat_digitChar d (hds d (List.mem_cons_self d ds))]
    have : 48 + d - 48 = d := by omega
    rw [this]
    exact ih (fun x hx => hds x (List.mem_cons_of_mem d hx)) _

theorem foldl_replicate_zero_char :
    ∀ k, (List.replicate k '0').foldl (fun x c => 10 * x + (c.toNat - 48)) 0 = 0 := by
  intro k
  induction k with
  | zero => rfl
  | succ k ih => simpa [List.replicate_succ] using ih

theorem pad8Chars_val (n : Nat) :
    (pad8Chars n).foldl (fun x c => 10 * x + (c.toNat - 48)) 0 = n := by
  unfold pad8Chars decDigits
  rw [List.foldl_append, foldl_replicate_zero_char]
  rw [foldl_map_digitChar _ (decDigitsAux_lt_ten _ _)]
  have := decDigitsAux_foldl (fun x d => 10 * x + d) (fun _ _ => rfl)
    (n + 1) n (Nat.lt_succ_self n) 0
  rw [this]
  simp

theorem pad8Chars_injective : Function.Injective pad8Chars := by
  intro a b hab
  have ha := pad8Chars_val a
  have hb := pad8Chars_val b
  rw [hab] at ha
  omega

theorem pad8_injective : Function.Injective pad8 := by
  intro a b hab
  unfold pad8 at hab
  have hdata : (String.mk (pad8Chars a) ++ ".png").data
      = (String.mk (pad8Chars b) ++ ".png").data := by rw [hab]
  simp only [String.data_append] at hdata
  exact pad8Chars_injective (List.append_cancel_right hdata)

theorem tasksForWords_snd (fi : FontInfo) (fIdx : Nat) (mode : Mode)
    (s : Subset) (td : TextData) (tIdx : Nat) :
    ∀ ws wIdx c, (tasksForWords fi fIdx mode s td tIdx ws wIdx c).2
      = c + ws.length := by
  intro ws
  induction ws with
  | nil => intro wIdx c; rfl
  | cons w ws ih =>
    intro wIdx c
    unfold tasksForWords
    simp [ih]
    omega

theorem tasksForWords_map_seq (fi : FontInfo) (fIdx : Nat) (mode : Mode)
    (s : Subset) (td : TextData) (tIdx : Nat) :
    ∀ ws wIdx c, ((tasksForWords fi fIdx mode s td tIdx ws wIdx c).1).map
        WorkItem.seq = List.range' c ws.length := by
  intro ws
  induction ws with
  | nil => intro wIdx c; rfl
  | cons w ws ih =>
    intro wIdx c
    unfold tasksForWords
    simp [ih, List.range'_succ]

theorem tasksForWords_mem (fi : FontInfo) (fIdx : Nat) (mode : Mode)
    (s : Subset) (td : TextData) (tIdx : Nat) :
    ∀ ws wIdx c, ∀ t ∈ (tasksForWords fi fIdx mode s td tIdx ws wIdx c).1,
      t.splitName = s ∧ t.fontIdx = fIdx ∧ t.textIdx = tIdx
        ∧ t.imgFilename = pad8 t.seq ∧ wIdx ≤ t.wordIdx := by
  intro ws
  induction ws with
  | nil => intro wIdx c t ht; simp [tasksForWords] at ht
  | cons w ws ih =>
    intro wIdx c t ht
    unfold tasksForWords at ht
    simp only [List.mem_cons] at ht
    rcases ht with ht | ht
    · subst ht; refine ⟨rfl, rfl, rfl, rfl, le_refl _⟩
    · have := ih (wIdx + 1) (c + 1) t ht
      exact ⟨this.1, this.2.1, this.2.2.1, this.2.2.2.1, by omega⟩

theorem tasksForWords_pairwise_lex (fi : FontInfo) (fIdx : Nat) (mode : Mode)
    (s : Subset) (td : TextData) (tIdx : Nat) :
    ∀ ws wIdx c, ((tasksForWords fi fIdx mode s td tIdx ws wIdx c).1).Pairwise
      (fun a b => idxLexLt (idxKey a) (idxKey b)) := by
  intro ws
  induction ws with
  | nil => intro wIdx c; simp [tasksForWords]
  | cons w ws ih =>
    intro wIdx c
    unfold tasksForWords
    refine List.Pairwise.cons ?_ (ih (wIdx + 1) (c + 1))
    intro t ht
    have hm := tasksForWords_mem fi fIdx mode s td tIdx ws (wIdx + 1) (c + 1) t ht
    have h2 : t.fontIdx = fIdx := hm.2.1
    have h3 : t.textIdx = tIdx := hm.2.2.1
    have h5 : wIdx + 1 ≤ t.wordIdx := hm.2.2.2.2
    simp only [idxLexLt, idxKey]
    right
    exact ⟨h2.symm, Or.inr ⟨h3.symm, by omega⟩⟩

theorem itemsCount_cons (mode : Mode) (td : TextData) (tds : List TextData) :
    itemsCount mode (td :: tds)
      = (wordsToRender mode td).length + itemsCount mode tds := by
  simp [itemsCount]

theorem itemsCount_append (mode : Mode) (l1 l2 : List TextData) :
    itemsCount mode (l1 ++ l2) = itemsCount mode l1 + itemsCount mode l2 := by
  simp [itemsCount]

theorem tasksForTexts_snd (fi : FontInfo) (fIdx : Nat) (mode : Mode)
    (s : Subset) :
    ∀ tds tIdx c, (tasksForTexts fi fIdx mode s tds tIdx c).2
      = c + itemsCount mode tds := by
  intro tds
  induction tds with
  | nil => intro tIdx c; simp [tasksForTexts, itemsCount]
  | cons td tds ih =>
    intro tIdx c
    unfold tasksForTexts
    simp only [ih, tasksForWords_snd, itemsCount_cons]
    omega

theorem tasksForTexts_map_seq (fi : FontInfo) (fIdx : Nat) (mode : Mode)
    (s : Subset) :
    ∀ tds tIdx c, ((tasksForTexts fi fIdx mode s tds tIdx c).1).map
      WorkItem.seq = List.range' c (itemsCount mode tds) := by
  intro tds
  induction tds with
  | nil => intro tIdx c; simp [tasksForTexts, itemsCount]
  | cons td tds ih =>
    intro tIdx c
    unfold tasksForTexts
    simp only [List.map_append, tasksForWords_map_seq, ih, tasksForWords_snd,
      itemsCount_cons]
    have h := List.range'_append c (wordsToRender mode td).length
      (itemsCount mode tds) 1
    simp only [one_mul] at h
    rw [h, Nat.add_comm]

theorem tasksForTexts_mem (fi : FontInfo) (fIdx : Nat) (mode : Mode)
    (s : Subset) :
    ∀ tds tIdx c, ∀ t ∈ (tasksForTexts fi fIdx mode s tds tIdx c).1,
      t.splitName = s ∧ t.fontIdx = fIdx ∧ t.imgFilename = pad8 t.seq
        ∧ tIdx ≤ t.textIdx := by
  intro tds
  induction tds with
  | nil => intro tIdx c t ht; simp [tasksForTexts] at ht
  | cons td tds ih =>
    intro tIdx c t ht
    unfold tasksForTexts at ht
    simp only [List.mem_append] at ht
    rcases ht with ht | ht
    · have hm := tasksForWords_mem fi fIdx mode s td tIdx
        (wordsToRender mode td) 0 c t ht
      exact ⟨hm.1, hm.2.1, hm.2.2.2.1, le_of_eq hm.2.2.1.symm⟩
    · have hm := ih (tIdx + 1) _ t ht
      exact ⟨hm.1, hm.2.1, hm.2.2.1, by omega⟩

theorem tasksForTexts_pairwise_lex (fi : FontInfo) (fIdx : Nat) (mode : Mode)
    (s : Subset) :
    ∀ tds tIdx c, ((tasksForTexts fi fIdx mode s tds tIdx c).1).Pairwise
      (fun a b => idxLexLt (idxKey a) (idxKey b)) := by
  intro tds
  induction tds with
  | nil => intro tIdx c; simp [tasksForTexts]
  | cons td tds ih =>
    intro tIdx c
    unfold tasksForTexts
    rw [List.pairwise_append]
    refine ⟨tasksForWords_pairwise_lex fi fIdx mode s td tIdx _ 0 c,
      ih (tIdx + 1) _, ?_⟩
    intro a ha b hb
    have hma := tasksForWords_mem fi fIdx mode s td tIdx
      (wordsToRender mode td) 0 c a ha
    have hmb := tasksForTexts_mem fi fIdx mode s tds (tIdx + 1) _ b hb
    have h1 : a.fontIdx = fIdx := hma.2.1
    have h2 : a.textIdx = tIdx := hma.2.2.1
    have h3 : b.fontIdx = fIdx := hmb.2.1
    have h4 : tIdx + 1 ≤ b.textIdx := hmb.2.2.2
    simp only [idxLexLt, idxKey]
    right
    exact ⟨by omega, Or.inl (by omega)⟩

theorem subsetTasks_append (s : Subset) (l1 l2 : List WorkItem) :
    subsetTasks s (l1 ++ l2) = subsetTasks s l1 ++ subsetTasks s l2 := by
  simp [subsetTasks]

theorem subsetTasks_subset (s : Subset) (l : List WorkItem) :
    ∀ t ∈ subsetTasks s l, t ∈ l := by
  intro t ht
  exact List.mem_of_mem_filter ht

theorem subsetTasks_const (l : List WorkItem) (s0 s : Subset)
    (h : ∀ t ∈ l, t.splitName = s0) :
    subsetTasks s l = if s0 = s then l else [] := by
  induction l with
  | nil => simp [subsetTasks]
  | cons t ts ih =>
    have ht : t.splitName = s0 := h t (List.mem_cons_self t ts)
    have hrest := ih (fun u hu => h u (List.mem_cons_of_mem t hu))
    simp only [subsetTasks, List.filter_cons] at hrest ⊢
    rw [ht]
    by_cases hss : s0 = s
    · subst hss; simp [hrest]
    · simp [hss, hrest]

theorem subsetTasks_length_partition (l : List WorkItem) :
    (subsetTasks .train l).length + (subsetTasks .validation l).length
      + (subsetTasks .test l).length = l.length := by
  induction l with
  | nil => rfl
  | cons t ts ih =>
    simp only [subsetTasks, List.filter_cons] at ih ⊢
    cases hs : t.splitName <;> simp [hs] <;> omega

theorem tasksForFont_filter (fi : FontInfo) (fIdx : Nat) (mode : Mode)
    (tr va te : List TextData) (c : Counters) (s : Subset) :
    subsetTasks s (tasksForFont fi fIdx mode tr va te c).1
      = (tasksForTexts fi fIdx mode s (pick3 s tr va te) 0 (c.get s)).1 := by
  unfold tasksForFont
  simp only [subsetTasks_append]
  rw [subsetTasks_const _ .train s
      (fun t ht => (tasksForTexts_mem fi fIdx mode .train tr 0 c.train t ht).1),
    subsetTasks_const _ .validation s
      (fun t ht =>
        (tasksForTexts_mem fi fIdx mode .validation va 0 c.validation t ht).1),
    subsetTasks_const _ .test s
      (fun t ht => (tasksForTexts_mem fi fIdx mode .test te 0 c.test t ht).1)]
  cases s <;> simp [pick3, Counters.get]

theorem tasksForFont_snd_get (fi : FontInfo) (fIdx : Nat) (mode : Mode)
    (tr va te : List TextData) (c : Counters) (s : Subset) :
    ((tasksForFont fi fIdx mode tr va te c).2).get s
      = c.get s + itemsCount mode (pick3 s tr va te) := by
  cases s <;> simp [tasksForFont, Counters.get, pick3, tasksForTexts_snd]

theorem tasksForFont_mem (fi : FontInfo) (fIdx : Nat) (mode : Mode)
    (tr va te : List TextData) (c : Counters) :
    ∀ t ∈ (tasksForFont fi fIdx mode tr va te c).1,
      t.fontIdx = fIdx ∧ t.imgFilename = pad8 t.seq := by
  intro t ht
  unfold tasksForFont at ht
  simp only [List.mem_append] at ht
  rcases ht with (ht | ht) | ht
  · have := tasksForTexts_mem fi fIdx mode .train tr 0 c.train t ht
    exact ⟨this.2.1, this.2.2.1⟩
  · have := tasksForTexts_mem fi fIdx mode .validation va 0 c.validation t ht
    exact ⟨this.2.1, this.2.2.1⟩
  · have := tasksForTexts_mem fi fIdx mode .test te 0 c.test t ht
    exact ⟨this.2.1, this.2.2.1⟩

theorem buildTasksAux_snd_get (mode : Mode) (tr va te : List TextData)
    (s : Subset) :
    ∀ fis fIdx c, ((buildTasksAux mode tr va te fis fIdx c).2).get s
      = c.get s + fis.length * itemsCount mode (pick3 s tr va te) := by
  intro fis
  induction fis with
  | nil => intro fIdx c; simp [buildTasksAux]
  | cons fi fis ih =>
    intro fIdx c
    unfold buildTasksAux
    rw [ih, tasksForFont_snd_get]
    simp [List.length_cons]
    ring

theorem buildTasksAux_filter_map_seq (mode : Mode) (tr va te : List TextData)
    (s : Subset) :
    ∀ fis fIdx c,
      (subsetTasks s (buildTasksAux mode tr va te fis fIdx c).1).map
        WorkItem.seq
      = List.range' (c.get s)
          (fis.length * itemsCount mode (pick3 s tr va te)) := by
  intro fis
  induction fis with
  | nil => intro fIdx c; simp [buildTasksAux, subsetTasks]
  | cons fi fis ih =>
    intro fIdx c
    unfold buildTasksAux
    rw [subsetTasks_append, List.map_append, tasksForFont_filter,
      tasksForTexts_map_seq, ih, tasksForFont_snd_get]
    have h := List.range'_append (c.get s)
      (itemsCount mode (pick3 s tr va te))
      (fis.length * itemsCount mode (pick3 s tr va te)) 1
    simp only [one_mul] at h
    rw [h]
    congr 1
    simp [List.length_cons]
    ring

theorem buildTasksAux_mem (mode : Mode) (tr va te : List TextData) :
    ∀ fis fIdx c, ∀ t ∈ (buildTasksAux mode tr va te fis fIdx c).1,
      fIdx ≤ t.fontIdx ∧ t.imgFilename = pad8 t.seq := by
  intro fis
  induction fis with
  | nil => intro fIdx c t ht; simp [buildTasksAux] at ht
  | cons fi fis ih =>
    intro fIdx c t ht
    unfold buildTasksAux at ht
    simp only [List.mem_append] at ht
    rcases ht with ht | ht
    · have := tasksForFont_mem fi fIdx mode tr va te c t ht
      exact ⟨le_of_eq this.1.symm, this.2⟩
    · have := ih (fIdx + 1) _ t ht
      exact ⟨by omega, this.2⟩

theorem buildTasksAux_pairwise_lex (mode : Mode) (tr va te : List TextData)
    (s : Subset) :
    ∀ fis fIdx c,
      (subsetTasks s (buildTasksAux mode tr va te fis fIdx c).1).Pairwise
        (fun a b => idxLexLt (idxKey a) (idxKey b)) := by
  intro fis
  induction fis with
  | nil => intro fIdx c; simp [buildTasksAux, subsetTasks]
  | cons fi fis ih =>
    intro fIdx c
    unfold buildTasksAux
    rw [subsetTasks_append, List.pairwise_append]
    refine ⟨?_, ih (fIdx + 1) _, ?_⟩
    · rw [tasksForFont_filter]
      exact tasksForTexts_pairwise_lex fi fIdx mode s (pick3 s tr va te) 0 _
    · intro a ha b hb
      rw [tasksForFont_filter] at ha
      have hma := tasksForTexts_mem fi fIdx mode s (pick3 s tr va te) 0 _ a ha
      have hb2 := subsetTasks_subset s _ b hb
      have hmb := buildTasksAux_mem mode tr va te fis (fIdx + 1) _ b hb2
      have h1 : a.fontIdx = fIdx := hma.2.1
      have h2 : fIdx + 1 ≤ b.fontIdx := hmb.1
      simp only [idxLexLt, idxKey]
      left
      omega

theorem counters_zero_get (s : Subset) : (⟨0, 0, 0⟩ : Counters).get s = 0 := by
  cases s <;> rfl

theorem buildTasksAux_pairwise_seq (mode : Mode) (tr va te : List TextData)
    (s : Subset) (fis : List FontInfo) (fIdx : Nat) (c : Counters) :
    (subsetTasks s (buildTasksAux mode tr va te fis fIdx c).1).Pairwise
      (fun a b => a.seq < b.seq) := by
  have hmap := buildTasksAux_filter_map_seq mode tr va te s fis fIdx c
  have hr := List.pairwise_lt_range' (c.get s)
    (fis.length * itemsCount mode (pick3 s tr va te)) 1
  rw [← hmap] at hr
  exact (List.pairwise_map).1 hr

theorem idxLexLt_irrefl (a : Nat × Nat × Nat) : ¬ idxLexLt a a := by
  simp only [idxLexLt]
  omega

theorem idxLexLt_asymm (a b : Nat × Nat × Nat) :
    idxLexLt a b → idxLexLt b a → False := by
  simp only [idxLexLt]
  omega

theorem itemsCount_lines (tds : List TextData) :
    itemsCount .lines tds = tds.length := by
  induction tds with
  | nil => rfl
  | cons td tds ih =>
    rw [itemsCount_cons, ih]
    simp [wordsToRender]
    omega

theorem expectedTotalItems_eq (mode : Mode) (tds : List TextData)
    (fonts : List FontInfo) :
    expectedTotalItems mode tds fonts = itemsCount mode tds * fonts.length := by
  cases mode with
  | words => simp [expectedTotalItems, itemsCount, wordsToRender]
  | lines => simp [expectedTotalItems, itemsCount_lines]

/-- C2: for every planner run, within each subset the pre-assigned
sequence numbers are exactly the dense range `0..count-1` (hence
pairwise distinct), the derived image file names are pairwise distinct,
and the three per-subset item counts sum to the total planned item
count (which equals the independently computed expected total). -/
theorem planner_subset_seq_dense_and_counts (fonts : List FontInfo)
    (mode : Mode) (tr va te : List TextData) :
    (∀ s : Subset,
      ((subsetTasks s (buildTasks fonts mode tr va te).1).map WorkItem.seq
        = List.range
            (subsetTasks s (buildTasks fonts mode tr va te).1).length)
      ∧ ((subsetTasks s (buildTasks fonts mode tr va te).1).map
          WorkItem.imgFilename).Nodup)
    ∧ (subsetTasks .train (buildTasks fonts mode tr va te).1).length
        + (subsetTasks .validation (buildTasks fonts mode tr va te).1).length
        + (subsetTasks .test (buildTasks fonts mode tr va te).1).length
        = (buildTasks fonts mode tr va te).1.length
    ∧ (buildTasks fonts mode tr va te).1.length
        = expectedTotalItems mode (tr ++ va ++ te) fonts := by
  have hmap : ∀ s : Subset,
      (subsetTasks s (buildTasks fonts mode tr va te).1).map WorkItem.seq
        = List.range' 0 (fonts.length * itemsCount mode (pick3 s tr va te)) := by
    intro s
    have := buildTasksAux_filter_map_seq mode tr va te s fonts 0 ⟨0, 0, 0⟩
    rwa [counters_zero_get] at this
  have hlen : ∀ s : Subset,
      (subsetTasks s (buildTasks fonts mode tr va te).1).length
        = fonts.length * itemsCount mode (pick3 s tr va te) := by
    intro s
    have := congrArg List.length (hmap s)
    simpa using this
  refine ⟨?_, ?_, ?_⟩
  · intro s
    constructor
    · rw [hmap s, hlen s, List.range_eq_range']
    · have hpt : ∀ t ∈ subsetTasks s (buildTasks fonts mode tr va te).1,
          t.imgFilename = pad8 t.seq := by
        intro t ht
        exact (buildTasksAux_mem mode tr va te fonts 0 ⟨0, 0, 0⟩ t
          (subsetTasks_subset s _ t ht)).2
      rw [List.map_congr_left hpt]
      have : (subsetTasks s (buildTasks fonts mode tr va te).1).map
          (fun t => pad8 t.seq)
          = ((subsetTasks s (buildTasks fonts mode tr va te).1).map
              WorkItem.seq).map pad8 := by
        rw [List.map_map]
        rfl
      rw [this, hmap s]
      exact List.Nodup.map pad8_injective (List.nodup_range' 0 _)
  · exact subsetTasks_length_partition _
  · have hpart := subsetTasks_length_partition (buildTasks fonts mode tr va te).1
    rw [← hpart, hlen .train, hlen .validation, hlen .test,
      expectedTotalItems_eq]
    simp only [pick3, itemsCount_append]
    ring

/-- C6: sequence numbers respect the planner's nested iteration order:
for two work items of the same subset, the one whose (font position,
text-chunk position, word position) provenance triple is
lexicographically smaller carries the smaller sequence number.  (The
loops nest font → subset → text → word, but within a fixed subset the
induced order of that subset's items is exactly the lexicographic order
of the triples.) -/
theorem seq_numbers_follow_lex_provenance (fonts : List FontInfo)
    (mode : Mode) (tr va te : List TextData) (t1 t2 : WorkItem)
    (h1 : t1 ∈ (buildTasks fonts mode tr va te).1)
    (h2 : t2 ∈ (buildTasks fonts mode tr va te).1)
    (hs : t1.splitName = t2.splitName)
    (hlex : idxLexLt (idxKey t1) (idxKey t2)) :
    t1.seq < t2.seq := by
  set l := subsetTasks t1.splitName (buildTasks fonts mode tr va te).1 with hl
  have hm1 : t1 ∈ l := by
    apply List.mem_filter.2
    exact ⟨h1, by simp⟩
  have hm2 : t2 ∈ l := by
    apply List.mem_filter.2
    refine ⟨h2, ?_⟩
    simp [← hs]
  have hplex : l.Pairwise (fun a b => idxLexLt (idxKey a) (idxKey b)) := by
    rw [hl]
    exact buildTasksAux_pairwise_lex mode tr va te t1.splitName fonts 0 ⟨0, 0, 0⟩
  have hpseq : l.Pairwise (fun a b => a.seq < b.seq) := by
    rw [hl]
    exact buildTasksAux_pairwise_seq mode tr va te t1.splitName fonts 0 ⟨0, 0, 0⟩
  rw [List.pairwise_iff_getElem] at hplex hpseq
  obtain ⟨i1, hi1, he1⟩ := List.mem_iff_getElem.1 hm1
  obtain ⟨i2, hi2, he2⟩ := List.mem_iff_getElem.1 hm2
  rcases Nat.lt_trichotomy i1 i2 with hlt | heq | hgt
  · have := hpseq i1 i2 hi1 hi2 hlt
    rwa [he1, he2] at this
  · subst heq
    rw [he1] at he2
    subst he2
    exact absurd hlex (idxLexLt_irrefl _)
  · have := hplex i2 i1 hi2 hi1 hgt
    rw [he1, he2] at this
    exact absurd this (fun h => idxLexLt_asymm _ _ hlex h)

/-- Witness for C6 on a concrete two-text plan: the item with the
smaller provenance triple has the smaller sequence number. -/
theorem seq_numbers_follow_lex_provenance_witness :
    wiA ∈ (buildTasks [fontA] .lines [textA, textB] [] []).1
    ∧ wiB ∈ (buildTasks [fontA] .lines [textA, textB] [] []).1
    ∧ wiA.splitName = wiB.splitName
    ∧ idxLexLt (idxKey wiA) (idxKey wiB)
    ∧ wiA.seq < wiB.seq := by
  refine ⟨?_, ?_, ?_, ?_, ?_⟩
  · decide
  · decide
  · decide
  · show idxLexLt (0, 0, 0) (0, 1, 0)
    simp [idxLexLt]
  · exact seq_numbers_follow_lex_provenance [fontA] .lines [textA, textB] [] []
      wiA wiB (by decide) (by decide) (by decide)
      (by show idxLexLt (0, 0, 0) (0, 1, 0); simp [idxLexLt])

theorem seqWords_all_ok (ok : String → String → Bool)
    (hok : ∀ fp w, ok fp w = true) (fi : FontInfo) (fIdx : Nat) (mode : Mode)
    (s : Subset) (td : TextData) (tIdx : Nat) :
    ∀ ws wIdx c, seqWords ok fi s ws c
      = (((tasksForWords fi fIdx mode s td tIdx ws wIdx c).1).map taskEntry,
          c + ws.length) := by
  intro ws
  induction ws with
  | nil => intro wIdx c; simp [seqWords, tasksForWords]
  | cons w ws ih =>
    intro wIdx c
    unfold seqWords tasksForWords
    rw [hok]
    simp only [if_true, List.map_cons, ih (wIdx + 1) (c + 1)]
    simp only [Prod.mk.injEq]
    exact ⟨rfl, by simp; omega⟩

theorem seqTexts_all_ok (ok : String → String → Bool)
    (hok : ∀ fp w, ok fp w = true) (fi : FontInfo) (fIdx : Nat) (mode : Mode)
    (s : Subset) :
    ∀ tds tIdx c, seqTexts ok fi mode s tds c
      = (((tasksForTexts fi fIdx mode s tds tIdx c).1).map taskEntry,
          c + itemsCount mode tds) := by
  intro tds
  induction tds with
  | nil => intro tIdx c; simp [seqTexts, tasksForTexts, itemsCount]
  | cons td tds ih =>
    intro tIdx c
    unfold seqTexts tasksForTexts
    rw [seqWords_all_ok ok hok fi fIdx mode s td tIdx _ 0 c]
    simp only [tasksForWords_snd]
    rw [ih (tIdx + 1) (c + (wordsToRender mode td).length)]
    simp only [tasksForWords_snd, List.map_append, itemsCount_cons]
    simp only [Prod.mk.injEq, true_and]
    omega

theorem seqFont_all_ok (ok : String → String → Bool)
    (hok : ∀ fp w, ok fp w = true) (fi : FontInfo) (fIdx : Nat) (mode : Mode)
    (tr va te : List TextData) (c : Counters) :
    seqFont ok fi mode tr va te c
      = (((tasksForFont fi fIdx mode tr va te c).1).map taskEntry,
          (tasksForFont fi fIdx mode tr va te c).2) := by
  unfold seqFont tasksForFont
  rw [seqTexts_all_ok ok hok fi fIdx mode .train tr 0 c.train,
    seqTexts_all_ok ok hok fi fIdx mode .validation va 0 c.validation,
    seqTexts_all_ok ok hok fi fIdx mode .test te 0 c.test]
  simp [tasksForTexts_snd]

theorem seqEngineAux_all_ok (ok : String → String → Bool)
    (hok : ∀ fp w, ok fp w = true) (mode : Mode) (tr va te : List TextData) :
    ∀ fis fIdx c, seqEngineAux ok mode tr va te fis c
      = (((buildTasksAux mode tr va te fis fIdx c).1).map taskEntry,
          (buildTasksAux mode tr va te fis fIdx c).2) := by
  intro fis
  induction fis with
  | nil => intro fIdx c; simp [seqEngineAux, buildTasksAux]
  | cons fi fis ih =>
    intro fIdx c
    unfold seqEngineAux buildTasksAux
    simp only [seqFont_all_ok ok hok fi fIdx mode tr va te c, ih (fIdx + 1),
      List.map_append]

/-- C1 (amended): when no planned item fails to render, the parallel and
sequential strategies assign the identical mapping from (subset,
sequence number) to file name and caption. -/
theorem engines_agree_when_no_failures (ok : String → String → Bool)
    (fonts : List FontInfo) (mode : Mode) (tr va te : List TextData)
    (hok : ∀ fp w, ok fp w = true) :
    parAssignment ok (buildTasks fonts mode tr va te).1
      = seqAssignment ok fonts mode tr va te := by
  have hpar : parAssignment ok (buildTasks fonts mode tr va te).1
      = ((buildTasks fonts mode tr va te).1).map taskEntry := by
    unfold parAssignment
    rw [show (fun t : WorkItem =>
        if ok t.fontPath t.text then some (taskEntry t) else none)
        = (some ∘ taskEntry) from
      funext fun t => by rw [hok]; exact if_pos rfl]
    rw [List.filterMap_eq_map]
  have hseq := seqEngineAux_all_ok ok hok mode tr va te fonts 0 ⟨0, 0, 0⟩
  rw [hpar]
  unfold seqAssignment
  rw [hseq]
  rfl

/-- Witness for the amended C1 on a concrete plan with an all-success
render oracle. -/
theorem engines_agree_when_no_failures_witness :
    parAssignment (fun _ _ => true)
        (buildTasks [fontA] .lines [textA, textB] [] []).1
      = seqAssignment (fun _ _ => true) [fontA] .lines [textA, textB] [] [] :=
  engines_agree_when_no_failures (fun _ _ => true) [fontA] .lines
    [textA, textB] [] [] (fun _ _ => rfl)

/-- C1 counterexample: with one failing item (the caption `a` fails to
render) the two strategies assign different mappings — the parallel
strategy keeps the pre-assigned number 1 for the surviving item, the
sequential strategy renumbers it to 0. -/
theorem engines_disagree_on_failure_cx :
    ¬ assignmentsAgree
        (parAssignment okCx (buildTasks [fontA] .lines [textA, textB] [] []).1)
        (seqAssignment okCx [fontA] .lines [textA, textB] [] []) := by
  decide

/-- C3: the planning stage is deterministic under re-run — two
invocations on the same font catalog, text corpus, granularity,
proportions, PRNG state and truncation limit produce identical
planned work-item lists (and identical post-state).  The PRNG state
stands for the fixed seed; the program itself never seeds Python's
global generator, so equal states model the claim's premise. -/
theorem planner_two_run_deterministic (fonts1 fonts2 : List FontInfo)
    (texts1 texts2 : List TextData) (mode1 mode2 : Mode)
    (pT1 pT2 pV1 pV2 : ℚ) (seed1 seed2 : Nat) (max1 max2 : Option Nat)
    (hf : fonts1 = fonts2) (ht : texts1 = texts2) (hm : mode1 = mode2)
    (hT : pT1 = pT2) (hV : pV1 = pV2) (hs : seed1 = seed2)
    (hx : max1 = max2) :
    generateDatasetRun fonts1 texts1 mode1 pT1 pV1 seed1 max1
      = generateDatasetRun fonts2 texts2 mode2 pT2 pV2 seed2 max2 := by
  subst hf ht hm hT hV hs hx
  rfl

/-- Witness for C3 at a concrete configuration. -/
theorem planner_two_run_deterministic_witness :
    generateDatasetRun [fontA] [textA] .lines (4 / 5) (1 / 10) 7 none
      = generateDatasetRun [fontA] [textA] .lines (4 / 5) (1 / 10) 7 none :=
  planner_two_run_deterministic [fontA] [fontA] [textA] [textA] .lines .lines
    (4 / 5) (4 / 5) (1 / 10) (1 / 10) 7 7 none none
    rfl rfl rfl rfl rfl rfl rfl

/-- C4 (amended): `generate_dataset` validates only the two emptiness
conditions; split proportions are never checked, so any run with a
non-empty font catalog and non-empty text corpus proceeds to planning
and rendering regardless of the proportions (even when
`p_train + p_val > 1`). -/
theorem no_proportion_validation (fonts : List FontInfo)
    (texts : List TextData) (mode : Mode) (pT pV : ℚ) (seed : Nat)
    (maxT : Option Nat) (hf : fonts ≠ []) (ht : texts ≠ []) :
    genOk (generateDatasetRun fonts texts mode pT pV seed maxT).result
      = true := by
  unfold generateDatasetRun
  rw [if_neg hf, if_neg ht]
  rfl

/-- Witness for the amended C4: proportions 0.8/0.8 are accepted. -/
theorem no_proportion_validation_witness :
    genOk (generateDatasetRun [fontA] [textA] .lines (4 / 5) (4 / 5) 0
        none).result = true :=
  no_proportion_validation [fontA] [textA] .lines (4 / 5) (4 / 5) 0 none
    (by simp) (by simp)

/-- C4 counterexample: with p_train = p_val = 0.8 (both non-negative,
sum 1.6 > 1, hence p_test < 0) the run is not treated as a fatal
configuration error: planning succeeds and rendering proceeds. -/
theorem invalid_proportions_not_rejected_cx :
    ((0 : ℚ) ≤ 4 / 5 ∧ (1 : ℚ) < 4 / 5 + 4 / 5)
    ∧ genOk (generateDatasetRun [fontA] [textA] .lines (4 / 5) (4 / 5) 0
        none).result = true := by
  refine ⟨⟨by norm_num, by norm_num⟩, ?_⟩
  rfl

theorem getD_cons_eraseIdx_perm {α : Type} [Inhabited α] :
    ∀ (l : List α) (j : Nat), j < l.length →
      List.Perm ((l.getD j default) :: l.eraseIdx j) l := by
  intro l
  induction l with
  | nil => intro j hj; simp at hj
  | cons x xs ih =>
    intro j hj
    cases j with
    | zero => simp [List.getD]
    | succ j =>
      have hj2 : j < xs.length := by simpa using hj
      have hswap : List.Perm ((xs.getD j default) :: x :: xs.eraseIdx j)
          (x :: (xs.getD j default) :: xs.eraseIdx j) :=
        List.Perm.swap x (xs.getD j default) (xs.eraseIdx j)
      have hrec : List.Perm (x :: ((xs.getD j default) :: xs.eraseIdx j))
          (x :: xs) :=
        List.Perm.cons x (ih j hj2)
      simpa [List.getD, List.eraseIdx] using hswap.trans hrec

theorem shuffleAux_perm {α : Type} [Inhabited α] :
    ∀ (fuel s : Nat) (l : List α), List.Perm (shuffleAux fuel s l) l := by
  intro fuel
  induction fuel with
  | zero => intro s l; cases l <;> simp [shuffleAux]
  | succ fuel ih =>
    intro s l
    cases l with
    | nil => simp [shuffleAux]
    | cons x xs =>
      show List.Perm ((x :: xs).getD (s % (x :: xs).length) default
          :: shuffleAux fuel (lcg s)
            ((x :: xs).eraseIdx (s % (x :: xs).length)))
        (x :: xs)
      have hj : s % (x :: xs).length < (x :: xs).length :=
        Nat.mod_lt _ (by simp)
      exact (List.Perm.cons _ (ih (lcg s) _)).trans
        (getD_cons_eraseIdx_perm (x :: xs) _ hj)

theorem pyShuffle_perm {α : Type} [Inhabited α] (seed : Nat) (l : List α) :
    List.Perm (pyShuffle seed l) l :=
  shuffleAux_perm l.length seed l

theorem textsToUse_of_aliased (maxT : Option Nat) (texts : List TextData)
    (h : aliasesOriginal maxT = true) : textsToUse maxT texts = texts := by
  cases maxT with
  | none => rfl
  | some m =>
    cases m with
    | zero => rfl
    | succ k => simp [aliasesOriginal] at h

/-- C10 (amended): after a generation run the builder's text list always
holds the same elements (it is a permutation of the list segmentation
produced), and it is left completely unchanged whenever a positive
maximum text count is configured — but with no limit configured (the
default) the slice aliases the builder's list and the in-place shuffle
may reorder it. -/
theorem generation_texts_permuted (fonts : List FontInfo)
    (texts : List TextData) (mode : Mode) (pT pV : ℚ) (seed : Nat)
    (maxT : Option Nat) :
    List.Perm (generateDatasetRun fonts texts mode pT pV seed
        maxT).selfTexts texts
    ∧ (∀ m, maxT = some (m + 1) →
        (generateDatasetRun fonts texts mode pT pV seed maxT).selfTexts
          = texts) := by
  by_cases hf : fonts = []
  · simp [generateDatasetRun, hf]
  · by_cases ht : texts = []
    · simp [generateDatasetRun, hf, ht]
    · constructor
      · show List.Perm (if fonts = [] then
              (⟨.error .noFonts, texts⟩ : RunOutcome)
            else if texts = [] then ⟨.error .noTexts, texts⟩
            else _).selfTexts texts
        rw [if_neg hf, if_neg ht]
        by_cases ha : aliasesOriginal maxT = true
        · show List.Perm (if aliasesOriginal maxT then
              pyShuffle seed (textsToUse maxT texts) else texts) texts
          rw [if_pos ha, textsToUse_of_aliased maxT texts ha]
          exact pyShuffle_perm seed texts
        · show List.Perm (if aliasesOriginal maxT then
              pyShuffle seed (textsToUse maxT texts) else texts) texts
          rw [if_neg ha]
      · intro m hm
        subst hm
        show (if fonts = [] then (⟨.error .noFonts, texts⟩ : RunOutcome)
            else if texts = [] then ⟨.error .noTexts, texts⟩
            else _).selfTexts = texts
        rw [if_neg hf, if_neg ht]
        show (if aliasesOriginal (some (m + 1)) then
            pyShuffle seed (textsToUse (some (m + 1)) texts) else texts) = texts
        rfl

/-- Witness for the amended C10 at a concrete configuration with a
positive text limit. -/
theorem generation_texts_permuted_witness :
    (generateDatasetRun [fontA] [textA, textB] .lines (4 / 5) (1 / 10) 1
        (some 1)).selfTexts = [textA, textB]
    ∧ List.Perm (generateDatasetRun [fontA] [textA, textB] .lines (4 / 5)
        (1 / 10) 1 (some 1)).selfTexts [textA, textB] :=
  ⟨(generation_texts_permuted [fontA] [textA, textB] .lines (4 / 5) (1 / 10) 1
      (some 1)).2 0 rfl,
   (generation_texts_permuted [fontA] [textA, textB] .lines (4 / 5) (1 / 10) 1
      (some 1)).1⟩

/-- C10 counterexample: with the default (no maximum text count) the
slice aliases the builder's own list and the in-place shuffle reorders
it: after the run the loaded text list is no longer in segmentation
order. -/
theorem generation_mutates_text_list_cx :
    (generateDatasetRun [fontA] [textA, textB] .lines (4 / 5) (1 / 10) 1
        none).selfTexts ≠ [textA, textB] := by
  decide

/-- C5 (amended): the split is computed with Python `int()` truncation,
not rounding — the train subset receives exactly the first
`int(n * p_train)` units, validation the next `int(n * p_val)`, and
test all remaining units; the three parts partition the shuffled list. -/
theorem split_proportions_truncated (texts : List TextData) (pT pV : ℚ) :
    split3 texts pT pV
      = (texts.take ((pyInt ((texts.length : ℚ) * pT)).toNat),
         (texts.drop ((pyInt ((texts.length : ℚ) * pT)).toNat)).take
           ((pyInt ((texts.length : ℚ) * pV)).toNat),
         texts.drop ((pyInt ((texts.length : ℚ) * pT)).toNat
           + (pyInt ((texts.length : ℚ) * pV)).toNat))
    ∧ (split3 texts pT pV).1 ++ (split3 texts pT pV).2.1
        ++ (split3 texts pT pV).2.2 = texts := by
  constructor
  · simp only [split3]
    simp
  · simp only [split3]
    rw [Nat.add_sub_cancel_left]
    rw [List.append_assoc]
    rw [← List.drop_drop]
    rw [List.take_append_drop, List.take_append_drop]

/-- C5 counterexample: for three texts and p_train = 1/2 the claim's
`round(3 * 0.5) = 2` disagrees with the code's `int(3 * 0.5) = 1`: the
train subset receives one text, not the first two. -/
theorem split_round_cx :
    (split3 [textA, textB, textC] (1 / 2) (1 / 4)).1
      ≠ [textA, textB, textC].take ((specRound ((3 : ℚ) * (1 / 2))).toNat) := by
  have hnumT : (((3 : ℚ)) * (1 / 2)).num = 3 := by norm_num
  have hdenT : (((3 : ℚ)) * (1 / 2)).den = 2 := by norm_num
  have hT : (pyInt ((3 : ℚ) * (1 / 2))).toNat = 1 := by
    unfold pyInt
    rw [hnumT, hdenT]
    decide
  have hnumV : (((3 : ℚ)) * (1 / 4)).num = 3 := by norm_num
  have hdenV : (((3 : ℚ)) * (1 / 4)).den = 4 := by norm_num
  have hV : (pyInt ((3 : ℚ) * (1 / 4))).toNat = 0 := by
    unfold pyInt
    rw [hnumV, hdenV]
    decide
  have hlen : (([textA, textB, textC] : List TextData).length : ℚ) = (3 : ℚ) := by
    norm_num
  have h1 : (split3 [textA, textB, textC] (1 / 2) (1 / 4)).1 = [textA] := by
    simp only [split3, hlen, hT]
    decide
  have hr : ((3 : ℚ) * (1 / 2)) + 1 / 2 = 2 := by norm_num
  have hnum2 : ((2 : ℚ)).num = 2 := by norm_num
  have hden2 : ((2 : ℚ)).den = 1 := by norm_num
  have h2 : (specRound ((3 : ℚ) * (1 / 2))).toNat = 2 := by
    unfold specRound ratFloor
    rw [hr, hnum2, hden2]
    decide
  rw [h1, h2]
  decide

/-- C7: any failure inside the worker body (font load, measurement,
draw, save) makes the worker return the failure marker `None` instead of
an exception, and such an item contributes nothing to the collected
results — so it is excluded from the collected result count and from
every per-subset sample count. -/
theorem worker_failure_skipped (pil : PIL) (t : WorkItem)
    (targetHeight : Nat) (e : String)
    (hfail : workerBody pil t targetHeight = .error e) :
    generateSingleImage pil t targetHeight = none
    ∧ (∀ rest, collectResults pil targetHeight (t :: rest)
        = collectResults pil targetHeight rest)
    ∧ (∀ rest, imagesGenerated pil targetHeight (t :: rest)
        = imagesGenerated pil targetHeight rest)
    ∧ (∀ rest s, subsetSamples pil targetHeight (t :: rest) s
        = subsetSamples pil targetHeight rest s) := by
  have hnone : generateSingleImage pil t targetHeight = none := by
    unfold generateSingleImage
    rw [hfail]
  have hcoll : ∀ rest, collectResults pil targetHeight (t :: rest)
      = collectResults pil targetHeight rest := by
    intro rest
    simp [collectResults, List.filterMap_cons, hnone]
  refine ⟨hnone, hcoll, ?_, ?_⟩
  · intro rest
    simp [imagesGenerated, hcoll]
  · intro rest s
    simp [subsetSamples, hcoll]

/-- Witness for C7: a font file that cannot be opened yields the
failure marker and an empty collected result list. -/
theorem worker_failure_skipped_witness :
    workerBody pilFail taskEmpty 128 = .error "cannot open font"
    ∧ generateSingleImage pilFail taskEmpty 128 = none
    ∧ collectResults pilFail 128 [taskEmpty] = []
    ∧ imagesGenerated pilFail 128 [taskEmpty] = 0 := by
  have hfail : workerBody pilFail taskEmpty 128 = .error "cannot open font" :=
    rfl
  have hmain := worker_failure_skipped pilFail taskEmpty 128
    "cannot open font" hfail
  exact ⟨hfail, hmain.1, (hmain.2.1 []).trans rfl, (hmain.2.2.1 []).trans rfl⟩

theorem finishRender_ok (pil : PIL) (t : WorkItem) (targetHeight : Nat)
    (fontSize x0 y0 x1 y1 : Int) (r : RenderOut)
    (h : finishRender pil t targetHeight fontSize x0 y0 x1 y1 = .ok r) :
    r.height = targetHeight ∧ r.width = max r.measuredWidth 10 := by
  unfold finishRender at h
  split at h
  · exact absurd h (by simp)
  · split at h
    · exact absurd h (by simp)
    · cases h
      exact ⟨rfl, rfl⟩

theorem afterMeasure_ok (pil : PIL) (t : WorkItem) (targetHeight : Nat)
    (fontSize x0 y0 x1 y1 : Int) (r : RenderOut)
    (h : afterMeasure pil t targetHeight fontSize x0 y0 x1 y1 = .ok r) :
    r.height = targetHeight ∧ r.width = max r.measuredWidth 10 := by
  simp only [afterMeasure] at h
  split at h
  · split at h
    · exact absurd h (by simp)
    · split at h
      · exact absurd h (by simp)
      · exact finishRender_ok pil t targetHeight _ _ _ _ _ r h
  · exact finishRender_ok pil t targetHeight _ _ _ _ _ r h

/-- C9: every successful render produces an image whose height is
exactly the target height and whose width is `max(measured text width,
10)` — in particular at least 10 pixels, whatever the measurement (the
empty string included). -/
theorem render_geometry (pil : PIL) (t : WorkItem) (targetHeight : Nat)
    (r : RenderOut) (h : workerBody pil t targetHeight = .ok r) :
    r.height = targetHeight ∧ r.width = max r.measuredWidth 10
      ∧ (10 : Int) ≤ r.width := by
  simp only [workerBody] at h
  split at h
  · exact absurd h (by simp)
  · split at h
    · exact absurd h (by simp)
    · have hma := afterMeasure_ok pil t targetHeight _ _ _ _ _ r h
      refine ⟨hma.1, hma.2, ?_⟩
      rw [hma.2]
      exact le_max_right _ _

/-- Witness for C9: rendering the empty string at target height 128 on
an all-success oracle yields a 10-pixel-wide, 128-pixel-tall image (the
width floor applies to the zero-width measurement). -/
theorem render_geometry_witness :
    workerBody pilOk taskEmpty 128 = .ok renderOutEmpty
    ∧ (renderOutEmpty.height = 128
        ∧ renderOutEmpty.width = max renderOutEmpty.measuredWidth 10
        ∧ (10 : Int) ≤ renderOutEmpty.width)
    ∧ renderOutEmpty.width = 10 := by
  have hok : workerBody pilOk taskEmpty 128 = .ok renderOutEmpty := rfl
  exact ⟨hok, render_geometry pilOk taskEmpty 128 renderOutEmpty hok, rfl⟩

/-- C8 counterexample: the code also treats the abbreviation `bd` as a
bold marker, so `Family-Bd.ttf` is classified bold-like (and not
normal-like), while the claim's marker list (bold/heavy/black only)
says it is normal-like and not bold-like. -/
theorem font_classification_markers_cx :
    ¬ (((classifyFontFile "Family-Bd.ttf" = .boldLike)
          ↔ specBoldLike "Family-Bd.ttf" = true)
       ∧ ((classifyFontFile "Family-Bd.ttf" = .normalLike)
          ↔ specNormalLike "Family-Bd.ttf" = true)) := by
  decide

/-- C8 (amended): with the marker list the code actually uses (the
abbreviation `bd` counted as a bold marker), a font file is bold-like
iff its lowercased name contains a bold, bd, heavy or black marker and
no italic or oblique marker, and normal-like iff it contains none of the
six markers; consequently a family folder containing only
`Family-Italic.ttf` is excluded under both style filters. -/
theorem font_classification_amended :
    (∀ name, ((classifyFontFile name = .boldLike)
        ↔ specBoldLikeFixed name = true)
      ∧ ((classifyFontFile name = .normalLike)
        ↔ specNormalLikeFixed name = true))
    ∧ (∀ style cat fam,
        scanFamilyFolder style cat fam ["Family-Italic.ttf"] = none) := by
  constructor
  · intro name
    cases h1 : substr "bold" (strLower name) <;>
      cases h2 : substr "bd" (strLower name) <;>
        cases h3 : substr "heavy" (strLower name) <;>
          cases h4 : substr "black" (strLower name) <;>
            cases h5 : substr "italic" (strLower name) <;>
              cases h6 : substr "oblique" (strLower name) <;>
                simp [classifyFontFile, specBoldLikeFixed, specNormalLikeFixed,
                  boldKeywords, allStyleKeywords, h1, h2, h3, h4, h5, h6]
  · intro style cat fam
    have hclass : classifyFontFile "Family-Italic.ttf" = .neither := by decide
    have hfilterN : (["Family-Italic.ttf"].filter
        (fun f => classifyFontFile f == StyleClass.normalLike)) = [] := by
      simp [List.filter, hclass]
      rfl
    have hfilterB : (["Family-Italic.ttf"].filter
        (fun f => classifyFontFile f == StyleClass.boldLike)) = [] := by
      simp [List.filter, hclass]
      rfl
    simp only [scanFamilyFolder, hfilterN, hfilterB]
    by_cases hb : style = "bold"
    · simp [hb]
    · by_cases hn : style = "normal"
      · simp [hb, hn]
      · simp [hb, hn]
